import Mathlib

/-!
Verification of the `caldp` packaging core: a shallow embedding of
`caldp/file_ops.py` (file discovery, tar creation, upload, orchestration)
and `caldp/log.py` (the counting logger), with theorems checking the
design-document claims against the embedded code.

Conventions of the embedding:
* Filesystem paths are lists of path components; the current working
  directory is an absolute component list.  Path strings appearing in the
  Python source are converted to components by splitting on `/`.
* Python exceptions are `Except PyErr`; an operation that can both fail
  and mutate state returns `Except PyErr α × State` so that the state at
  the moment of the exception is observable.
* Machine integers do not occur; verbosity levels are `Int`, counters are
  `Nat`, the upload percentage is an exact `ℚ` (the source computes it in
  floating point, which is exact at the concrete values considered here).
-/

namespace Caldp

/-- Python exception classes that the embedded code can raise. -/
inductive PyErr
  | fileNotFound      -- FileNotFoundError
  | isADirectory      -- IsADirectoryError (os.remove on a directory)
  | unboundLocal      -- UnboundLocalError (get_output_dir, unrecognized scheme)
  | notADirectory     -- NotADirectoryError (os.chdir onto a regular file)
  | valueError        -- ValueError (int() on a malformed string)
  | nameError         -- NameError (reference to an unbound module global)
  | assertionError    -- AssertionError (failed assert statement)
  | addDirectory      -- tarfile.add of a directory: recursion not modelled
deriving Repr, DecidableEq

/-- Decidable equality for embedded call results. -/
instance {ε α : Type} [DecidableEq ε] [DecidableEq α] : DecidableEq (Except ε α) :=
  fun a b =>
    match a, b with
    | .ok x, .ok y =>
      if h : x = y then .isTrue (by rw [h]) else .isFalse (fun hh => h (Except.ok.inj hh))
    | .error x, .error y =>
      if h : x = y then .isTrue (by rw [h]) else .isFalse (fun hh => h (Except.error.inj hh))
    | .ok _, .error _ => .isFalse (fun hh => Except.noConfusion hh)
    | .error _, .ok _ => .isFalse (fun hh => Except.noConfusion hh)

/-!
String primitives.  The Python string operations used by the source
(`startswith`, `endswith`, `split`, slicing, `strip`) are embedded as
structurally recursive functions on the character list of the string, so
that every concrete run of the embedded code can be evaluated inside the
kernel.
-/

/-- First list starts with the second. -/
def listStarts : List Char → List Char → Bool
  | _, [] => true
  | [], _ :: _ => false
  | c :: cs, d :: ds => (c = d) && listStarts cs ds

/-- Python `s.startswith(pre)`. -/
def pyStarts (s pre : String) : Bool := listStarts s.data pre.data

/-- Python `s.endswith(sufx)`. -/
def pyEnds (s sufx : String) : Bool := sufx.data.isSuffixOf s.data

/-- Python `s.split(sep)` for a one-character separator: splits at every
occurrence and keeps empty pieces (`accum` is the reversed current piece). -/
def splitCharAux (sep : Char) : List Char → List Char → List String
  | [], accum => [String.mk accum.reverse]
  | c :: cs, accum =>
    if c = sep then String.mk accum.reverse :: splitCharAux sep cs []
    else splitCharAux sep cs (c :: accum)

/-- Python `s.split(sep)`, one-character separator. -/
def pySplit (s : String) (sep : Char) : List String := splitCharAux sep s.data []

/-- Python character slicing `s[n:]` (by code points). -/
def pyDrop (s : String) (n : Nat) : String := String.mk (s.data.drop n)

/-- The ASCII whitespace accepted by Python `str.strip` (space, tab,
newline, carriage return, vertical tab, form feed). -/
def pyWs (c : Char) : Bool :=
  c = ' ' || c = '\t' || c = '\n' || c = '\r' || c.toNat = 11 || c.toNat = 12

/-- Python `s.strip()`, as a character list. -/
def pyStrip (s : String) : List Char :=
  ((s.data.dropWhile pyWs).reverse.dropWhile pyWs).reverse

/-- A filesystem entry: a regular file with abstract contents, or a gzipped
tar archive whose observable content is its ordered member (arcname) list. -/
inductive Entry
  | file (data : String)
  | arch (members : List String)
deriving Repr, DecidableEq

/-- Association-list lookup of a path among the regular-file entries. -/
def findEntry : List (List String × Entry) → List String → Option Entry
  | [], _ => none
  | e :: rest, p => if e.1 = p then some e.2 else findEntry rest p

/-- Remove every entry stored under path `p`. -/
def eraseEntry : List (List String × Entry) → List String → List (List String × Entry)
  | [], _ => []
  | e :: rest, p => if e.1 = p then eraseEntry rest p else e :: eraseEntry rest p

/-- Filesystem state: file entries keyed by absolute component paths, plus
the set of existing directories. -/
structure FS where
  files : List (List String × Entry)
  dirs  : List (List String)
deriving Repr, DecidableEq

def lookupFile (fs : FS) (p : List String) : Option Entry :=
  findEntry fs.files p

def eraseFile (fs : FS) (p : List String) : FS :=
  { fs with files := eraseEntry fs.files p }

/-- Store (create or overwrite) the entry at path `p`. -/
def setFile (fs : FS) (p : List String) (ent : Entry) : FS :=
  { fs with files := eraseEntry fs.files p ++ [(p, ent)] }

def isDir (fs : FS) (p : List String) : Bool := fs.dirs.contains p

/-- Every existing path, files first then directories; this is the pool the
glob model draws from (`glob.glob` matches files and directories alike). -/
def allPaths (fs : FS) : List (List String) := fs.files.map Prod.fst ++ fs.dirs

/-- Embeds `os.path.exists`: true for regular files and for directories. -/
def pathExists (fs : FS) (p : List String) : Bool :=
  (lookupFile fs p).isSome || isDir fs p

/-- Embeds `os.remove`: deletes a regular file; raises IsADirectoryError on a
directory and FileNotFoundError on a missing path. -/
def osRemove (fs : FS) (p : List String) : Except PyErr FS :=
  if (lookupFile fs p).isSome then .ok (eraseFile fs p)
  else if isDir fs p then .error .isADirectory
  else .error .fileNotFound

/-- Split a relative path string into its nonempty components. -/
def relComps (s : String) : List String :=
  (pySplit s '/').filter (fun c => decide (c ≠ ""))

/-- Resolve a path string against an absolute current working directory,
given as a component list. -/
def resolveS (cwd : List String) (s : String) : List String :=
  if pyStarts s "/" then relComps s else cwd ++ relComps s

/-- Render an absolute component list the way `os.getcwd` would. -/
def compsPath (c : List String) : String := "/" ++ String.intercalate "/" c

/-- Embeds `os.path.join(a, b)` for the argument shapes occurring in the source. -/
def osPathJoin (a b : String) : String :=
  if pyStarts b "/" then b
  else if a = "" then b
  else if pyEnds a "/" then a ++ b
  else a ++ "/" ++ b

/-- Embeds `file_ops.get_output_dir`: `file...` URIs yield the text after the last
colon, `s3...` URIs yield `os.path.abspath("outputs")` (`cwdPath` is the
absolute working directory string, without trailing slash); any other
value leaves the local variable `output_dir` unassigned, so the final
`return output_dir` raises UnboundLocalError. -/
def get_output_dir (cwdPath : String) (output_uri : String) : Except PyErr String :=
  if pyStarts output_uri "file" then .ok ((pySplit output_uri ':').getLastD "")
  else if pyStarts output_uri "s3" then .ok (cwdPath ++ "/outputs")
  else .error .unboundLocal

/-- Match of a directory entry name against the glob component `*<sufx>`:
the star matches any character run inside one component, so the test is a
suffix test, and `glob` skips names that begin with a dot (hidden files
are not matched by a pattern component that does not itself start with a
dot). -/
def starMatch (sufx name : String) : Bool :=
  match name.data with
  | '.' :: _ => false
  | _ => sufx.data.isSuffixOf name.data

/-- Computes `some n` exactly when `a = dir ++ [n]`, i.e. `a` is a direct child of
directory `dir` named `n`. -/
def childName (dir a : List String) : Option String :=
  if a.take dir.length = dir then
    match a.drop dir.length with
    | [n] => some n
    | _ => none
  else none

/-- Embeds `glob.glob` for a relative pattern `<dir>/*<sufx>`: every existing path
that is a direct child of `cwd ++ dirC` whose name matches the star
component, returned as the pattern-relative string `retPre ++ name` (the
enumeration order is the order of the underlying listing). -/
def globStar (cwd : List String) (fs : FS) (dirC : List String) (retPre sufx : String) :
    List String :=
  (allPaths fs).filterMap (fun a =>
    match childName (cwd ++ dirC) a with
    | some n => if starMatch sufx n then some (retPre ++ n) else none
    | none => none)

/-- Embeds `file_ops.find_files`: three glob searches, accumulated by `extend` in
a fixed order — `{ipppssoot}/*.fits`, then `{ipppssoot}/*.tra`, then
`{ipppssoot}/previews/*`. -/
def find_files (cwd : List String) (fs : FS) (ipppssoot : String) : List String :=
  let file_list := globStar cwd fs (relComps ipppssoot) (ipppssoot ++ "/") ".fits"
  let file_list := file_list ++ globStar cwd fs (relComps ipppssoot) (ipppssoot ++ "/") ".tra"
  file_list ++ globStar cwd fs (relComps ipppssoot ++ ["previews"]) (ipppssoot ++ "/previews/") ""

/-- Append one member to the archive entry stored at `tarAbs`. -/
def archAppend (fs : FS) (tarAbs : List String) (f : String) : FS :=
  match lookupFile fs tarAbs with
  | some (.arch ms) => setFile fs tarAbs (.arch (ms ++ [f]))
  | _ => fs

/-- The `t.add(f)` loop inside the `with` block of `make_tar`: each listed
path must name an existing regular file (FileNotFoundError otherwise; the
source would recurse into a directory argument, which is modelled as a
distinguished error because the file sets produced by `find_files` contain
only files).  On an error the partially written archive entry is left in
place, as the partially written file would be on disk. -/
def tarAddAll (cwd : List String) (fs : FS) (tarAbs : List String) :
    List String → Except PyErr Unit × FS
  | [] => (.ok (), fs)
  | f :: rest =>
    if (lookupFile fs (resolveS cwd f)).isSome then
      tarAddAll cwd (archAppend fs tarAbs f) tarAbs rest
    else if isDir fs (resolveS cwd f) then (.error .addDirectory, fs)
    else (.error .fileNotFound, fs)

/-- Embeds `shutil.copy(tar, ipppssoot)` as called by `make_tar`: `tar` is the
single-component archive name under `cwd`.  When the destination is an
existing directory the file is copied into it under its base name;
otherwise the destination path itself is created or overwritten as a
regular path (that is what `shutil.copy` does to a non-directory
destination); an empty destination string raises FileNotFoundError from
the underlying `open`. -/
def shutilCopyStep (cwd : List String) (fs : FS) (tar ipppssoot : String) :
    Except PyErr FS :=
  match lookupFile fs (cwd ++ [tar]) with
  | none => .error .fileNotFound
  | some ent =>
    if ipppssoot = "" then .error .fileNotFound
    else if isDir fs (cwd ++ [ipppssoot]) then .ok (setFile fs (cwd ++ [ipppssoot, tar]) ent)
    else .ok (setFile fs (cwd ++ [ipppssoot]) ent)

/-- Embeds `file_ops.make_tar`.  `ipppssoot` is a job identifier, a single path
component by the data-model invariant, so the relative strings `tar` and
`ipppssoot` resolve to one component under the working directory.  Steps:
delete a pre-existing `{ipppssoot}.tar.gz` (`os.remove` after
`os.path.exists`), create the archive in exclusive mode and add every
listed file, copy it into the job directory with `shutil.copy`, delete
the top-level transient copy, and return
`os.path.join(ipppssoot, tar)`.  The `log.info` calls touch only the
logger singleton and are omitted here. -/
def make_tar (cwd : List String) (fs : FS) (file_list : List String) (ipppssoot : String) :
    Except PyErr String × FS :=
  let tar := ipppssoot ++ ".tar.gz"
  let tarAbs := cwd ++ [tar]
  match (if pathExists fs tarAbs then osRemove fs tarAbs else .ok fs) with
  | .error e => (.error e, fs)
  | .ok fsr =>
    match tarAddAll cwd (setFile fsr tarAbs (.arch [])) tarAbs file_list with
    | (.error e, fs2) => (.error e, fs2)
    | (.ok _, fs2) =>
      match shutilCopyStep cwd fs2 tar ipppssoot with
      | .error e => (.error e, fs2)
      | .ok fs3 =>
        match osRemove fs3 tarAbs with
        | .error e => (.error e, fs3)
        | .ok fs4 => (.ok (osPathJoin ipppssoot tar), fs4)

/-- Process state threaded through the orchestration: working directory,
filesystem, and the uploads received by the storage-client stub. -/
structure Sys where
  cwd : List String
  fs : FS
  uploads : List (String × String)
deriving Repr, DecidableEq

/-- Embeds `file_ops.upload_tar`: parses bucket and key from `output_path[5:]`,
then uploads only when `output_path` starts with `"s3"`; for any other
value the function falls through and returns `None` without touching the
client.  The external client is modelled as recording the transfer; the
archive must be openable for reading. -/
def upload_tar (sys : Sys) (tar : String) (output_path : String) :
    Except PyErr Unit × Sys :=
  let parts := pySplit (pyDrop output_path 5) '/'
  let bucket := parts.headD ""
  let keyPre := String.intercalate "/" parts.tail
  let objectname := keyPre ++ "/" ++ (pySplit tar '/').getLastD ""
  if pyStarts output_path "s3" then
    match lookupFile sys.fs (resolveS sys.cwd tar) with
    | some _ => (.ok (), { sys with uploads := sys.uploads ++ [(bucket, objectname)] })
    | none => (.error .fileNotFound, sys)
  else (.ok (), sys)

/-- Embeds `os.chdir` to a target directory given as components. -/
def chdirComps (sys : Sys) (target : List String) : Except PyErr Sys :=
  if isDir sys.fs target then .ok { sys with cwd := target }
  else if (lookupFile sys.fs target).isSome then .error .notADirectory
  else .error .fileNotFound

/-- Embeds `os.chdir(path)` with a path string, resolved against the current
working directory. -/
def chdirS (sys : Sys) (s : String) : Except PyErr Sys :=
  chdirComps sys (resolveS sys.cwd s)

/-- Embeds `file_ops.tar_outputs`.  `opf` stands for `process.get_output_path`,
whose module is outside this embedding; it is passed as a pure function.
The source saves `os.getcwd()`, resolves and enters the output directory,
runs `find_files`, `make_tar` and `upload_tar`, and only then changes
back — there is no try/finally, so an exception from any of those steps
propagates with the working directory still set to the output directory.
The final chdir back to the saved directory is modelled on the saved
component list, which is the directory `os.getcwd()` named. -/
def tar_outputs (opf : String → String → String) (sys : Sys)
    (ipppssoot output_uri : String) :
    Except PyErr (Option (String × List String)) × Sys :=
  match get_output_dir (compsPath sys.cwd) output_uri with
  | .error e => (.error e, sys)
  | .ok output_dir =>
    match chdirS sys output_dir with
    | .error e => (.error e, sys)
    | .ok sys1 =>
      match make_tar sys1.cwd sys1.fs (find_files sys1.cwd sys1.fs ipppssoot) ipppssoot with
      | (.error e, fs2) => (.error e, { sys1 with fs := fs2 })
      | (.ok tar, fs2) =>
        match upload_tar { sys1 with fs := fs2 } tar (opf output_uri ipppssoot) with
        | (.error e, sys3) => (.error e, sys3)
        | (.ok _, sys3) =>
          match chdirComps sys3 sys.cwd with
          | .error e => (.error e, sys3)
          | .ok sys4 =>
            if pyStarts output_uri "file" then
              (.ok (some (tar, find_files sys1.cwd sys1.fs ipppssoot)), sys4)
            else (.ok none, sys4)

/-- Discriminator for success of an embedded Python call. -/
def exOk {ε α : Type} : Except ε α → Bool
  | .ok _ => true
  | .error _ => false

/-! ### The logger (`caldp/log.py`) -/

def DEFAULT_VERBOSITY_LEVEL : Int := 50

/-- Observable logger state: the four counters, the verbosity threshold,
the pending-end-of-line flag, the severity-tagged lines received by the
logging handler (each with the terminating newline the handler appends),
and the raw `write` output to stdout. -/
structure LoggerState where
  errors : Nat
  warnings : Nat
  infos : Nat
  debugs : Nat
  verbose_level : Int
  eol_pending : Bool
  sink : List (String × String)
  stdout_out : List String
deriving Repr, DecidableEq

/-- Embeds `CaldpLogger.format`: joins the already-stringified arguments with
`sep` (default one space) and appends `end` (default one newline).  No
filters are ever registered in the source, so the filter loop is the
identity. -/
def formatMsg (args : List String) (sepv endv : Option String) : String :=
  String.intercalate (sepv.getD " ") args ++ endv.getD "\n"

/-- Embeds `CaldpLogger.write`: formats with defaults, remembers whether a
newline is still owed, and writes to stdout. -/
def writeMsg (s : LoggerState) (args : List String) : LoggerState :=
  let output := formatMsg args none none
  { s with stdout_out := s.stdout_out ++ [output],
           eol_pending := !pyEnds output "\n" }

/-- Embeds `CaldpLogger.eformat`: forces `end=""` and flushes a pending
end-of-line first; returns the formatted text and the updated state. -/
def eformat (s : LoggerState) (args : List String) (sepv : Option String) :
    String × LoggerState :=
  let s1 := if s.eol_pending then writeMsg s [] else s
  (formatMsg args sepv (some ""), s1)

/-- The handler emits a record: severity tag and message text followed by
the handler terminator (one newline).  The timestamp/levelname prelude of
the `logging.Formatter` is represented by the tag. -/
def emit (s : LoggerState) (lvl : String) (msg : String) : LoggerState :=
  { s with sink := s.sink ++ [(lvl, msg ++ "\n")] }

/-- Embeds `CaldpLogger.info`: counts unconditionally, emits when
`verbose_level > -1`. -/
def logInfo (s : LoggerState) (args : List String) : LoggerState :=
  let s1 := { s with infos := s.infos + 1 }
  if s1.verbose_level > -1 then
    let ms := eformat s1 args none
    emit ms.2 "INFO" ms.1
  else s1

/-- Embeds `CaldpLogger.warn`: counts unconditionally, emits when
`verbose_level > -2`. -/
def logWarn (s : LoggerState) (args : List String) : LoggerState :=
  let s1 := { s with warnings := s.warnings + 1 }
  if s1.verbose_level > -2 then
    let ms := eformat s1 args none
    emit ms.2 "WARNING" ms.1
  else s1

/-- Embeds `CaldpLogger.error`: counts unconditionally, emits when
`verbose_level > -3`. -/
def logError (s : LoggerState) (args : List String) : LoggerState :=
  let s1 := { s with errors := s.errors + 1 }
  if s1.verbose_level > -3 then
    let ms := eformat s1 args none
    emit ms.2 "ERROR" ms.1
  else s1

/-- Embeds `CaldpLogger.debug`: counts unconditionally and always emits (the
handler level is DEBUG). -/
def logDebug (s : LoggerState) (args : List String) : LoggerState :=
  let s1 := { s with debugs := s.debugs + 1 }
  let ms := eformat s1 args none
  emit ms.2 "DEBUG" ms.1

/-- Embeds `CaldpLogger.should_output`: the per-call verbosity (default 50) must
not exceed the configured level. -/
def should_output (s : LoggerState) (verbosity : Option Int) : Bool :=
  !decide (s.verbose_level < verbosity.getD DEFAULT_VERBOSITY_LEVEL)

/-- Embeds `CaldpLogger.verbose`: delegates to `debug` when `should_output`
allows it; otherwise it does nothing at all (no count, no output). -/
def verboseMsg (s : LoggerState) (args : List String) (verbosity : Option Int) : LoggerState :=
  if should_output s verbosity then logDebug s args else s

/-- Embeds `CaldpLogger.status`. -/
def status (s : LoggerState) : Nat × Nat × Nat := (s.errors, s.warnings, s.infos)

/-- Embeds `CaldpLogger.reset`: zeroes all four counters. -/
def reset (s : LoggerState) : LoggerState :=
  { s with errors := 0, warnings := 0, infos := 0, debugs := 0 }

/-- Argument of `set_verbose`: a Python int or bool (the default is
`True`). -/
inductive VerboseArg
  | int (n : Int)
  | bool (b : Bool)
deriving Repr, DecidableEq

/-- Numeric value used by the range assert: Python compares `True` as 1
and `False` as 0. -/
def VerboseArg.cmpVal : VerboseArg → Int
  | .int n => n
  | .bool b => if b then 1 else 0

/-- Embeds `CaldpLogger.set_verbose`: asserts `-3 <= level <= 100`, maps `True`
to the default level 50 and `False` to 0, installs the level, and returns
the previous one. -/
def set_verbose (s : LoggerState) (arg : VerboseArg) :
    Except PyErr (Int × LoggerState) :=
  if -3 ≤ arg.cmpVal ∧ arg.cmpVal ≤ 100 then
    let lvl : Int :=
      match arg with
      | .bool true => DEFAULT_VERBOSITY_LEVEL
      | .bool false => 0
      | .int n => n
    .ok (s.verbose_level, { s with verbose_level := lvl })
  else .error .assertionError

/-- Embeds `CaldpLogger.get_verbose`. -/
def get_verbose (s : LoggerState) : Int := s.verbose_level

/-- One counted logging call, for reasoning about interleavings. -/
inductive LogCall
  | err (args : List String)
  | wrn (args : List String)
  | inf (args : List String)
deriving Repr, DecidableEq

def runCalls (s : LoggerState) : List LogCall → LoggerState
  | [] => s
  | .err a :: rest => runCalls (logError s a) rest
  | .wrn a :: rest => runCalls (logWarn s a) rest
  | .inf a :: rest => runCalls (logInfo s a) rest

def countErr (l : List LogCall) : Nat :=
  l.countP (fun c => match c with | .err _ => true | _ => false)

def countWrn (l : List LogCall) : Nat :=
  l.countP (fun c => match c with | .wrn _ => true | _ => false)

def countInf (l : List LogCall) : Nat :=
  l.countP (fun c => match c with | .inf _ => true | _ => false)

/-! ### `CALDP_VERBOSITY` parsing at logger construction -/

/-- Tail of the Python integer-literal grammar accepted by `int(str)`:
digits with single underscores strictly between digits. -/
def pyDigitsRest : List Char → Bool
  | [] => true
  | '_' :: c :: rest => c.isDigit && pyDigitsRest rest
  | ['_'] => false
  | c :: rest => c.isDigit && pyDigitsRest rest

/-- Decimal value of a digit/underscore run. -/
def digitsVal (l : List Char) : Nat :=
  l.foldl (fun acc c => if c = '_' then acc else acc * 10 + (c.toNat - '0'.toNat)) 0

/-- Python `int(s)` on a string: optional surrounding whitespace, optional
sign, then a nonempty digit run (with underscore grouping); `none` is a
ValueError. -/
def pyIntOfString (s : String) : Option Int :=
  let signed : Bool × List Char :=
    match pyStrip s with
    | '+' :: rest => (false, rest)
    | '-' :: rest => (true, rest)
    | l => (false, l)
  match signed.2 with
  | [] => none
  | c :: rest =>
    if c.isDigit && pyDigitsRest rest then
      some (if signed.1 then -(digitsVal (c :: rest) : Int) else (digitsVal (c :: rest) : Int))
    else none

/-- The verbosity-initialisation tail of `CaldpLogger.__init__`:
`verbose_level = os.environ.get("CALDP_VERBOSITY", 0)` followed by
`int(verbose_level)` inside `try`; the `except` handler calls the module
global `warning` and substitutes the default 50.  `warningBound` says
whether that global is bound at call time.  Returns the installed
verbosity level and the number of fallback warnings emitted. -/
def initVerboseLevel (env : Option String) (warningBound : Bool) :
    Except PyErr (Int × Nat) :=
  match env with
  | none => .ok (0, 0)
  | some s =>
    match pyIntOfString s with
    | some n => .ok (n, 0)
    | none =>
      if warningBound then .ok (DEFAULT_VERBOSITY_LEVEL, 1)
      else .error .nameError

/-- Construction of the module singleton `THE_LOGGER` at import time: the
module executes `THE_LOGGER = CaldpLogger("CALDP")` before the line
`warning = THE_LOGGER.warn`, so inside that construction the global
`warning` is not yet bound. -/
def moduleInitVerboseLevel (env : Option String) : Except PyErr (Int × Nat) :=
  initVerboseLevel env false

/-! ### Upload progress (`ProgressPercentage`) -/

/-- State of one `ProgressPercentage` instance: the archive size computed
once up front, and the bytes seen so far. -/
structure Prog where
  size : Nat
  seen : Nat
deriving Repr, DecidableEq

/-- The body of `ProgressPercentage.__call__` under `self._lock`: the
callback reports an incremental byte count which is accumulated. -/
def progCall (p : Prog) (bytes_amount : Nat) : Prog :=
  { p with seen := p.seen + bytes_amount }

/-- Run a sequence of callback invocations.  The mutual-exclusion lock
makes each callback body atomic, so a concurrent execution of a set of
callbacks is exactly a run of some permutation of the increment list. -/
def runProg (size : Nat) (l : List Nat) : Prog :=
  l.foldl progCall { size := size, seen := 0 }

/-- The reported percentage `seen / size * 100`, as an exact rational (the
source computes it in floating point; at the concrete values considered
here the float value is exact, and `"%.2f" % (100 : Float)` prints
`100.00`). -/
def progPct (p : Prog) : ℚ := ((p.seen : ℚ) / (p.size : ℚ)) * 100

/-! ### Concrete sample states used by counterexamples and witnesses -/

/-- A process state whose output directory contains a directory named
`J1.tar.gz`, which makes `os.remove` inside `make_tar` raise. -/
def c1Sys : Sys :=
  { cwd := ["home"],
    fs := { files := [], dirs := [["home"], ["data"], ["data", "J1.tar.gz"]] },
    uploads := [] }

/-- A process state on which the whole packaging operation succeeds. -/
def c1OkSys : Sys :=
  { cwd := ["home"],
    fs := { files := [(["data", "J1", "a.fits"], .file "x")],
            dirs := [["home"], ["data"], ["data", "J1"]] },
    uploads := [] }

/-- A concrete stand-in for `process.get_output_path`. -/
def opfSample : String → String → String := fun u i => u ++ "/" ++ i

/-- A process state used for the upload counterexample. -/
def gsSys : Sys :=
  { cwd := ["home"], fs := { files := [], dirs := [["home"]] }, uploads := [] }

/-- A working directory with no `J1` subdirectory, for the `make_tar`
misplacement counterexample. -/
def c4Fs : FS := { files := [], dirs := [["w"]] }

/-- A small logger state for witnesses. -/
def sampleLogger : LoggerState :=
  { errors := 0, warnings := 0, infos := 0, debugs := 0,
    verbose_level := 0, eol_pending := false, sink := [], stdout_out := [] }

/-- A working directory containing the job directory `J1` with one FITS
file, for the `make_tar` idempotence witness. -/
def fsW : FS :=
  { files := [(["w", "J1", "a.fits"], .file "x")], dirs := [["w"], ["w", "J1"]] }

/-- Result state of the first `make_tar` run on `fsW`. -/
def fsW1 : FS := (make_tar ["w"] fsW ["J1/a.fits"] "J1").2

/-- Result state of the second, repeated `make_tar` run. -/
def fsW2 : FS := (make_tar ["w"] fsW1 ["J1/a.fits"] "J1").2

/-! ## Helper lemmas about the filesystem model -/

theorem findEntry_eraseEntry_self (l : List (List String × Entry)) (p : List String) :
    findEntry (eraseEntry l p) p = none := by
  induction l with
  | nil => rfl
  | cons a rest ih =>
    by_cases h : a.1 = p
    · simp [eraseEntry, h, ih]
    · simp [eraseEntry, findEntry, h, ih]

theorem findEntry_eraseEntry_ne (l : List (List String × Entry)) (p q : List String)
    (h : q ≠ p) : findEntry (eraseEntry l p) q = findEntry l q := by
  induction l with
  | nil => rfl
  | cons a rest ih =>
    by_cases h1 : a.1 = p
    · have h2 : a.1 ≠ q := by rw [h1]; exact Ne.symm h
      simp [eraseEntry, findEntry, h1, h2, Ne.symm h, ih]
    · by_cases h2 : a.1 = q
      · simp [eraseEntry, findEntry, h, h1, h2]
      · simp [eraseEntry, findEntry, h, h1, h2, ih]

theorem findEntry_erase_append_self (l : List (List String × Entry)) (p : List String)
    (e : Entry) : findEntry (eraseEntry l p ++ [(p, e)]) p = some e := by
  induction l with
  | nil => simp [eraseEntry, findEntry]
  | cons a rest ih =>
    by_cases h : a.1 = p
    · simp [eraseEntry, h, ih]
    · simp [eraseEntry, findEntry, h, ih]

theorem findEntry_erase_append_ne (l : List (List String × Entry)) (p q : List String)
    (e : Entry) (h : q ≠ p) :
    findEntry (eraseEntry l p ++ [(p, e)]) q = findEntry l q := by
  induction l with
  | nil =>
    simp [eraseEntry, findEntry, Ne.symm h]
  | cons a rest ih =>
    by_cases h1 : a.1 = p
    · have h2 : a.1 ≠ q := by rw [h1]; exact Ne.symm h
      simp [eraseEntry, findEntry, h1, h2, Ne.symm h, ih]
    · by_cases h2 : a.1 = q
      · simp [eraseEntry, findEntry, h, h1, h2]
      · simp [eraseEntry, findEntry, h, h1, h2, ih]

theorem lookupFile_setFile_self (fs : FS) (p : List String) (e : Entry) :
    lookupFile (setFile fs p e) p = some e :=
  findEntry_erase_append_self fs.files p e

theorem lookupFile_setFile_ne (fs : FS) (p q : List String) (e : Entry) (h : q ≠ p) :
    lookupFile (setFile fs p e) q = lookupFile fs q :=
  findEntry_erase_append_ne fs.files p q e h

theorem lookupFile_eraseFile_self (fs : FS) (p : List String) :
    lookupFile (eraseFile fs p) p = none :=
  findEntry_eraseEntry_self fs.files p

theorem lookupFile_eraseFile_ne (fs : FS) (p q : List String) (h : q ≠ p) :
    lookupFile (eraseFile fs p) q = lookupFile fs q :=
  findEntry_eraseEntry_ne fs.files p q h

theorem osRemove_ok (fs : FS) (p : List String) (fs1 : FS)
    (h : osRemove fs p = .ok fs1) : fs1 = eraseFile fs p := by
  unfold osRemove at h
  split at h
  · exact (Except.ok.inj h).symm
  · split at h <;> simp at h

theorem chdirComps_ok (sys : Sys) (t : List String) (sys1 : Sys)
    (h : chdirComps sys t = .ok sys1) : sys1 = { sys with cwd := t } := by
  unfold chdirComps at h
  split at h
  · exact (Except.ok.inj h).symm
  · split at h <;> simp at h

theorem chdirComps_ok_cwd (sys : Sys) (t : List String) (sys1 : Sys)
    (h : chdirComps sys t = .ok sys1) : sys1.cwd = t := by
  rw [chdirComps_ok sys t sys1 h]

theorem childName_eq_some {dir a : List String} {n : String} :
    childName dir a = some n ↔ a = dir ++ [n] := by
  constructor
  · intro h
    unfold childName at h
    split at h
    · rename_i htake
      split at h
      · rename_i l hdrop
        cases h
        calc a = a.take dir.length ++ a.drop dir.length := (List.take_append_drop _ a).symm
        _ = dir ++ [n] := by rw [htake, hdrop]
      · exact absurd h (by simp)
    · exact absurd h (by simp)
  · intro h
    subst h
    unfold childName
    simp [List.take_left, List.drop_left]

theorem setFile_dirs (fs : FS) (p : List String) (e : Entry) :
    (setFile fs p e).dirs = fs.dirs := rfl

theorem eraseFile_dirs (fs : FS) (p : List String) :
    (eraseFile fs p).dirs = fs.dirs := rfl

/-- A successful add loop appends exactly the listed names to the member
list of the archive at `tarAbs`, and touches nothing else. -/
theorem tarAddAll_ok (cwd tarAbs : List String) :
    ∀ (fl : List String) (fsA : FS) (ms : List String) (fsB : FS) (u : Unit),
      lookupFile fsA tarAbs = some (.arch ms) →
      tarAddAll cwd fsA tarAbs fl = (.ok u, fsB) →
      lookupFile fsB tarAbs = some (.arch (ms ++ fl))
      ∧ fsB.dirs = fsA.dirs
      ∧ ∀ q, q ≠ tarAbs → lookupFile fsB q = lookupFile fsA q := by
  intro fl
  induction fl with
  | nil =>
    intro fsA ms fsB u hlook h
    simp only [tarAddAll] at h
    obtain ⟨h1, h2⟩ := Prod.mk.injEq .. ▸ h
    subst h2
    simp [hlook]
  | cons f rest ih =>
    intro fsA ms fsB u hlook h
    simp only [tarAddAll] at h
    split at h
    · have hApp : archAppend fsA tarAbs f = setFile fsA tarAbs (.arch (ms ++ [f])) := by
        unfold archAppend
        rw [hlook]
      rw [hApp] at h
      obtain ⟨h1, h2, h3⟩ :=
        ih (setFile fsA tarAbs (.arch (ms ++ [f]))) (ms ++ [f]) fsB u
          (lookupFile_setFile_self ..) h
      refine ⟨by simpa using h1, ?_, ?_⟩
      · rw [h2, setFile_dirs]
      · intro q hq
        rw [h3 q hq, lookupFile_setFile_ne _ _ _ _ hq]
    · split at h <;> simp at h

/-- Analysis of a successful `make_tar` run when the job directory
exists: the archive holds exactly the listed members and sits inside the
job directory, the transient top-level archive is gone, the directory set
is untouched, and the returned path is `os.path.join(ipppssoot, tar)`. -/
theorem make_tar_ok (cwd : List String) (fs : FS) (fl : List String) (jid : String)
    (p : String) (fsE : FS)
    (hmt : make_tar cwd fs fl jid = (.ok p, fsE))
    (hdir : isDir fs (cwd ++ [jid]) = true) :
    p = osPathJoin jid (jid ++ ".tar.gz")
    ∧ lookupFile fsE (cwd ++ [jid, jid ++ ".tar.gz"]) = some (.arch fl)
    ∧ lookupFile fsE (cwd ++ [jid ++ ".tar.gz"]) = none
    ∧ fsE.dirs = fs.dirs := by
  have hne : cwd ++ [jid, jid ++ ".tar.gz"] ≠ cwd ++ [jid ++ ".tar.gz"] := by
    intro hh
    have := List.append_cancel_left hh
    simp at this
  simp only [make_tar] at hmt
  split at hmt
  · simp at hmt
  · rename_i fsr heq1
    have hr : lookupFile fsr (cwd ++ [jid ++ ".tar.gz"]) = none ∧ fsr.dirs = fs.dirs := by
      split at heq1
      · rw [osRemove_ok _ _ _ heq1]
        exact ⟨lookupFile_eraseFile_self .., eraseFile_dirs ..⟩
      · rename_i hpe
        cases Except.ok.inj heq1
        refine ⟨?_, rfl⟩
        simp only [pathExists, Bool.or_eq_true, not_or] at hpe
        push_neg at hpe
        cases hl : lookupFile fs (cwd ++ [jid ++ ".tar.gz"]) with
        | none => rfl
        | some e =>
          exfalso
          exact hpe.1 (by simp [hl])
    split at hmt
    · simp at hmt
    · rename_i u fs2 heq2
      obtain ⟨h2look, h2dirs, h2pres⟩ :=
        tarAddAll_ok cwd (cwd ++ [jid ++ ".tar.gz"]) fl
          (setFile fsr (cwd ++ [jid ++ ".tar.gz"]) (.arch [])) [] fs2 u
          (lookupFile_setFile_self ..) heq2
    -- continue by analysing the copy and final remove
      rw [setFile_dirs] at h2dirs
      have hdir2 : isDir fs2 (cwd ++ [jid]) = true := by
        unfold isDir at *
        rw [h2dirs, hr.2]
        exact hdir
      split at hmt
      · simp at hmt
      · rename_i fs3 heq3
        unfold shutilCopyStep at heq3
        rw [List.nil_append] at h2look
        rw [h2look] at heq3
        simp only [] at heq3
        split at heq3
        · simp at heq3
        · have hfs3 : fs3 = setFile fs2 (cwd ++ [jid, jid ++ ".tar.gz"]) (.arch fl) :=
            (Except.ok.inj heq3).symm
          split at hmt
          · simp at hmt
          · rename_i fs4 heq4
            have hfs4 : fs4 = eraseFile fs3 (cwd ++ [jid ++ ".tar.gz"]) :=
              osRemove_ok _ _ _ heq4
            simp only [Prod.mk.injEq] at hmt
            obtain ⟨hp, hE⟩ := hmt
            cases Except.ok.inj hp
            cases hE
            subst hfs4
            subst hfs3
            refine ⟨rfl, ?_, lookupFile_eraseFile_self .., ?_⟩
            · rw [lookupFile_eraseFile_ne _ _ _ hne, lookupFile_setFile_self]
            · rw [eraseFile_dirs, setFile_dirs, h2dirs, hr.2]

/-! ## C4 — `make_tar` idempotence and final archive location -/

/-- C4 counterexample: when the job directory `J1` does not exist in the
working directory, `make_tar` still returns successfully with the path
`J1/J1.tar.gz`, but `shutil.copy` has written the archive to a regular
path named `J1` and nothing exists at the returned path — the claim that
after each successful call the archive resides at
`{jobId}/{jobId}.tar.gz` is false at this input. -/
theorem make_tar_missing_dir_misplaces :
    make_tar ["w"] c4Fs [] "J1"
      = (.ok "J1/J1.tar.gz", { files := [(["w", "J1"], .arch [])], dirs := [["w"]] })
    ∧ lookupFile (make_tar ["w"] c4Fs [] "J1").2 (["w"] ++ ["J1", "J1.tar.gz"]) = none := by
  exact ⟨by decide, by decide⟩

/-- C4 amended: provided the job directory exists in the working
directory, `make_tar` is idempotent in its observable result — two
successive successful runs with the same file set leave an archive with
exactly that member set both times (overwrite, not append), at
`{jobId}/{jobId}.tar.gz`, which is the returned path, and the transient
top-level `{jobId}.tar.gz` is deleted after each run.  (Without the
directory the call still succeeds but the archive is misplaced, as the
counterexample shows.) -/
theorem make_tar_idempotent (cwd : List String) (fs : FS) (fl : List String) (jid : String)
    (p1 : String) (fs1 : FS) (p2 : String) (fs2 : FS)
    (hdir : isDir fs (cwd ++ [jid]) = true)
    (h1 : make_tar cwd fs fl jid = (.ok p1, fs1))
    (h2 : make_tar cwd fs1 fl jid = (.ok p2, fs2)) :
    p1 = osPathJoin jid (jid ++ ".tar.gz")
    ∧ p2 = p1
    ∧ lookupFile fs1 (cwd ++ [jid, jid ++ ".tar.gz"]) = some (.arch fl)
    ∧ lookupFile fs2 (cwd ++ [jid, jid ++ ".tar.gz"]) = some (.arch fl)
    ∧ lookupFile fs1 (cwd ++ [jid ++ ".tar.gz"]) = none
    ∧ lookupFile fs2 (cwd ++ [jid ++ ".tar.gz"]) = none := by
  obtain ⟨hp1, ha1, ht1, hd1⟩ := make_tar_ok cwd fs fl jid p1 fs1 h1 hdir
  have hdir1 : isDir fs1 (cwd ++ [jid]) = true := by
    unfold isDir at *
    rw [hd1]
    exact hdir
  obtain ⟨hp2, ha2, ht2, hd2⟩ := make_tar_ok cwd fs1 fl jid p2 fs2 h2 hdir1
  exact ⟨hp1, hp2.trans hp1.symm, ha1, ha2, ht1, ht2⟩

theorem make_tar_idempotent_w :
    lookupFile fsW1 (["w"] ++ ["J1", "J1.tar.gz"]) = some (.arch ["J1/a.fits"])
    ∧ lookupFile fsW2 (["w"] ++ ["J1", "J1.tar.gz"]) = some (.arch ["J1/a.fits"]) := by
  have h := make_tar_idempotent ["w"] fsW ["J1/a.fits"] "J1"
    "J1/J1.tar.gz" fsW1 "J1/J1.tar.gz" fsW2 (by decide) (by decide) (by decide)
  exact ⟨h.2.2.1, h.2.2.2.1⟩

/-! ## C1 — working-directory restoration in `tar_outputs` -/

/-- C1 counterexample: a packaging run over `file:/data` where the output
directory contains a directory named `J1.tar.gz`; `make_tar` raises
IsADirectoryError after the orchestrator has changed into `/data`, the
exception propagates, and the process is left in `/data` — the working
directory is not restored on this failure path, contradicting the claim
that restoration happens on every path. -/
theorem tar_outputs_no_restore_on_failure :
    (tar_outputs opfSample c1Sys "J1" "file:/data").1 = .error .isADirectory
    ∧ (tar_outputs opfSample c1Sys "J1" "file:/data").2.cwd = ["data"]
    ∧ c1Sys.cwd = ["home"] := by
  exact ⟨by decide, by decide, rfl⟩

/-- C1 amended: `tar_outputs` restores the working directory saved at
entry when it returns successfully; when discovery, archiving or transfer
raises, the exception propagates with the working directory still set to
the output directory (no restoration on failure paths). -/
theorem tar_outputs_restores_cwd (opf : String → String → String) (sys : Sys)
    (jid uri : String)
    (h : exOk (tar_outputs opf sys jid uri).1 = true) :
    (tar_outputs opf sys jid uri).2.cwd = sys.cwd := by
  unfold tar_outputs at h ⊢
  split at h
  · simp [exOk] at h
  · split at h
    · simp [exOk] at h
    · split at h
      · simp [exOk] at h
      · split at h
        · simp [exOk] at h
        · split at h
          · simp [exOk] at h
          · rename_i sys4 heq5
            split <;> exact chdirComps_ok_cwd _ _ _ heq5

theorem tar_outputs_restores_cwd_w :
    (tar_outputs opfSample c1OkSys "J1" "file:/data").2.cwd = c1OkSys.cwd :=
  tar_outputs_restores_cwd opfSample c1OkSys "J1" "file:/data" (by decide)

/-! ## C2 — malformed `CALDP_VERBOSITY` at logger construction -/

/-- C2 (code_bug evidence): the claim says that for every value of
`CALDP_VERBOSITY` that does not parse as an integer, constructing the
logger succeeds, emits one warning and installs the default level 50.
The construction the program actually performs — `THE_LOGGER =
CaldpLogger("CALDP")` during module initialisation — instead raises
NameError on such a value, because the `except` handler references the
module global `warning`, which is only bound after that line.  The
intended fallback (one warning, level 50) is reachable only once
`warning` is bound, as the second conjunct shows. -/
theorem mod_import_malformed_verbosity_raises :
    moduleInitVerboseLevel (some "abc") = .error .nameError
    ∧ initVerboseLevel (some "abc") true = .ok (DEFAULT_VERBOSITY_LEVEL, 1) :=
  ⟨rfl, rfl⟩

/-! ## C3 — `upload_tar` on an unrecognized scheme -/

/-- C3 counterexample: for the destination `gs://bucket/pre`, which begins
with no recognized scheme, `upload_tar` returns successfully and performs
no transfer (the state, including the upload log, is unchanged) — it does
not fail with a TransferError-class condition as claimed. -/
theorem upload_tar_unrecognized_scheme_succeeds :
    upload_tar gsSys "J1/J1.tar.gz" "gs://bucket/pre" = (.ok (), gsSys) := rfl

/-- C3 amended: for every destination path that does not begin with `s3`,
`upload_tar` performs no transfer and returns successfully; a malformed
scheme is not detected (the only scheme test in the function is the
`startswith("s3")` guard around the client call). -/
theorem upload_tar_non_s3_no_transfer (sys : Sys) (tar out : String)
    (h : ¬ pyStarts out "s3") :
    upload_tar sys tar out = (.ok (), sys) := by
  unfold upload_tar
  simp [h]

theorem upload_tar_non_s3_no_transfer_w :
    upload_tar gsSys "J1/J1.tar.gz" "file:/data/J1" = (.ok (), gsSys) :=
  upload_tar_non_s3_no_transfer gsSys "J1/J1.tar.gz" "file:/data/J1" (by decide)

/-! ## C10 — `get_output_dir` scheme handling -/

/-- C10: for every `output_uri` beginning with neither `file` nor `s3`,
`get_output_dir` raises (UnboundLocalError: the local `output_dir` is
never assigned); for a `file`-prefixed URI it returns the text after the
last colon — so a path that itself contains a colon is truncated, as the
concrete third conjunct shows (`file:/tmp/a:b` yields `b`, not
`/tmp/a:b`). -/
theorem get_output_dir_schemes (cwdPath uri : String) :
    (¬ pyStarts uri "file" → ¬ pyStarts uri "s3" →
      get_output_dir cwdPath uri = .error .unboundLocal)
    ∧ (pyStarts uri "file" →
      get_output_dir cwdPath uri = .ok ((pySplit uri ':').getLastD ""))
    ∧ get_output_dir "/w" "file:/tmp/a:b" = .ok "b" := by
  refine ⟨?_, ?_, rfl⟩
  · intro h1 h2
    unfold get_output_dir
    simp [h1, h2]
  · intro h
    unfold get_output_dir
    simp [h]

theorem get_output_dir_schemes_w :
    get_output_dir "/w" "gs://bucket/pre" = .error .unboundLocal :=
  (get_output_dir_schemes "/w" "gs://bucket/pre").1 (by decide) (by decide)

/-! ## C5 — `set_verbose` / `get_verbose` round trip -/

/-- C5: for every level L in [-3,100], `set_verbose(L)` then
`get_verbose()` returns L; `set_verbose(True)` sets the default 50;
`set_verbose(False)` sets 0; and every call returns the previously active
level. -/
theorem set_verbose_get_verbose (s : LoggerState) (L : Int)
    (h1 : -3 ≤ L) (h2 : L ≤ 100) :
    (set_verbose s (.int L) = .ok (get_verbose s, { s with verbose_level := L })
      ∧ get_verbose { s with verbose_level := L } = L)
    ∧ set_verbose s (.bool true) = .ok (get_verbose s, { s with verbose_level := 50 })
    ∧ set_verbose s (.bool false) = .ok (get_verbose s, { s with verbose_level := 0 }) := by
  refine ⟨⟨?_, rfl⟩, ?_, ?_⟩
  · simp [set_verbose, VerboseArg.cmpVal, get_verbose, h1, h2]
  · simp [set_verbose, VerboseArg.cmpVal, get_verbose, DEFAULT_VERBOSITY_LEVEL]
  · simp [set_verbose, VerboseArg.cmpVal, get_verbose]

theorem set_verbose_get_verbose_w :
    set_verbose sampleLogger (.int 7)
      = .ok (get_verbose sampleLogger, { sampleLogger with verbose_level := 7 }) :=
  ((set_verbose_get_verbose sampleLogger 7 (by decide) (by decide)).1).1

/-! ## C6 — counters track calls exactly -/

theorem logError_counts (s : LoggerState) (a : List String) :
    (logError s a).errors = s.errors + 1 ∧ (logError s a).warnings = s.warnings
    ∧ (logError s a).infos = s.infos := by
  simp only [logError, eformat, writeMsg, emit]
  split <;> simp [apply_ite LoggerState.errors, apply_ite LoggerState.warnings,
    apply_ite LoggerState.infos]

theorem logWarn_counts (s : LoggerState) (a : List String) :
    (logWarn s a).errors = s.errors ∧ (logWarn s a).warnings = s.warnings + 1
    ∧ (logWarn s a).infos = s.infos := by
  simp only [logWarn, eformat, writeMsg, emit]
  split <;> simp [apply_ite LoggerState.errors, apply_ite LoggerState.warnings,
    apply_ite LoggerState.infos]

theorem logInfo_counts (s : LoggerState) (a : List String) :
    (logInfo s a).errors = s.errors ∧ (logInfo s a).warnings = s.warnings
    ∧ (logInfo s a).infos = s.infos + 1 := by
  simp only [logInfo, eformat, writeMsg, emit]
  split <;> simp [apply_ite LoggerState.errors, apply_ite LoggerState.warnings,
    apply_ite LoggerState.infos]

theorem runCalls_counts (calls : List LogCall) : ∀ s : LoggerState,
    (runCalls s calls).errors = s.errors + countErr calls
    ∧ (runCalls s calls).warnings = s.warnings + countWrn calls
    ∧ (runCalls s calls).infos = s.infos + countInf calls := by
  induction calls with
  | nil => intro s; simp [runCalls, countErr, countWrn, countInf]
  | cons c rest ih =>
    intro s
    cases c with
    | err a =>
      obtain ⟨i1, i2, i3⟩ := ih (logError s a)
      obtain ⟨e1, e2, e3⟩ := logError_counts s a
      simp only [runCalls]
      rw [i1, i2, i3, e1, e2, e3]
      simp only [countErr, countWrn, countInf, List.countP_cons]
      refine ⟨?_, ?_, ?_⟩ <;> (simp; try omega)
    | wrn a =>
      obtain ⟨i1, i2, i3⟩ := ih (logWarn s a)
      obtain ⟨e1, e2, e3⟩ := logWarn_counts s a
      simp only [runCalls]
      rw [i1, i2, i3, e1, e2, e3]
      simp only [countErr, countWrn, countInf, List.countP_cons]
      refine ⟨?_, ?_, ?_⟩ <;> (simp; try omega)
    | inf a =>
      obtain ⟨i1, i2, i3⟩ := ih (logInfo s a)
      obtain ⟨e1, e2, e3⟩ := logInfo_counts s a
      simp only [runCalls]
      rw [i1, i2, i3, e1, e2, e3]
      simp only [countErr, countWrn, countInf, List.countP_cons]
      refine ⟨?_, ?_, ?_⟩ <;> (simp; try omega)

/-- C6: starting from `reset()`, after any interleaving of N `error`, M
`warn` and K `info` calls — whatever the configured verbosity level, so
also when emission is suppressed — `status()` returns exactly (N, M, K);
and `reset()` brings `status()` back to (0,0,0) regardless of prior
history. -/
theorem status_counts_interleaving (s : LoggerState) (calls : List LogCall) :
    status (runCalls (reset s) calls) = (countErr calls, countWrn calls, countInf calls)
    ∧ status (reset s) = (0, 0, 0) := by
  obtain ⟨h1, h2, h3⟩ := runCalls_counts calls (reset s)
  refine ⟨?_, rfl⟩
  unfold status
  rw [h1, h2, h3]
  simp [reset]

/-! ## C7 — message formatting and emission gating -/

/-- C7: `info`/`warn`/`error` hand the sink one line whose text is the
arguments joined by a single space followed by one newline (the space is
the default separator of `format`, the newline is the handler
terminator, `eformat` having forced `end=""`); the line is emitted
exactly when the configured verbosity exceeds -1 / -2 / -3 respectively;
and a `verbose` call whose per-call verbosity exceeds the configured
level is a complete no-op. -/
theorem message_format_and_gating (s : LoggerState) (args : List String) (v : Int) :
    (logInfo s args).sink =
      (if s.verbose_level > -1
        then s.sink ++ [("INFO", String.intercalate " " args ++ "\n")] else s.sink)
    ∧ (logWarn s args).sink =
      (if s.verbose_level > -2
        then s.sink ++ [("WARNING", String.intercalate " " args ++ "\n")] else s.sink)
    ∧ (logError s args).sink =
      (if s.verbose_level > -3
        then s.sink ++ [("ERROR", String.intercalate " " args ++ "\n")] else s.sink)
    ∧ verboseMsg s args (some v) = (if s.verbose_level < v then s else logDebug s args) := by
  refine ⟨?_, ?_, ?_, ?_⟩
  · simp only [logInfo, eformat, formatMsg, emit, writeMsg]
    split <;> simp [apply_ite LoggerState.sink, String.append_empty]
  · simp only [logWarn, eformat, formatMsg, emit, writeMsg]
    split <;> simp [apply_ite LoggerState.sink, String.append_empty]
  · simp only [logError, eformat, formatMsg, emit, writeMsg]
    split <;> simp [apply_ite LoggerState.sink, String.append_empty]
  · by_cases hv : s.verbose_level < v <;>
      simp [verboseMsg, should_output, hv]

/-! ## C8 — file discovery -/

theorem globStar_mem (cwd : List String) (fs : FS) (dirC : List String)
    (retPre sufx x : String) :
    x ∈ globStar cwd fs dirC retPre sufx ↔
      ∃ n, x = retPre ++ n ∧ ((cwd ++ dirC) ++ [n]) ∈ allPaths fs
        ∧ starMatch sufx n = true := by
  unfold globStar
  rw [List.mem_filterMap]
  constructor
  · rintro ⟨a, ha, hx⟩
    cases hcn : childName (cwd ++ dirC) a with
    | none => rw [hcn] at hx; simp at hx
    | some n =>
      rw [hcn] at hx
      by_cases hm : starMatch sufx n = true
      · simp only [hm, if_true] at hx
        refine ⟨n, (Option.some.inj hx).symm, ?_, hm⟩
        rw [← childName_eq_some.mp hcn]
        exact ha
      · simp [hm] at hx
  · rintro ⟨n, hx, hmem, hm⟩
    refine ⟨(cwd ++ dirC) ++ [n], hmem, ?_⟩
    rw [childName_eq_some.mpr rfl]
    simp [hm, hx]

/-- C8: `find_files` is the concatenation, in this fixed order, of the
`*.fits` matches in the job directory, the `*.tra` matches there, and the
entries of `{jobId}/previews/`; membership is exactly direct children of
those directories whose names match; and when nothing at all exists below
the job directory (in particular when the directory does not exist) the
result is the empty list, not an error. -/
theorem find_files_spec (cwd : List String) (fs : FS) (jid : String) :
    (find_files cwd fs jid
      = globStar cwd fs (relComps jid) (jid ++ "/") ".fits"
        ++ globStar cwd fs (relComps jid) (jid ++ "/") ".tra"
        ++ globStar cwd fs (relComps jid ++ ["previews"]) (jid ++ "/previews/") "")
    ∧ (∀ x, x ∈ find_files cwd fs jid ↔
        (∃ n, x = (jid ++ "/") ++ n ∧ ((cwd ++ relComps jid) ++ [n]) ∈ allPaths fs
          ∧ (starMatch ".fits" n = true ∨ starMatch ".tra" n = true))
        ∨ (∃ n, x = (jid ++ "/previews/") ++ n
            ∧ ((cwd ++ (relComps jid ++ ["previews"])) ++ [n]) ∈ allPaths fs
            ∧ starMatch "" n = true))
    ∧ ((∀ a ∈ allPaths fs, ¬ ((cwd ++ relComps jid) <+: a ∧ a ≠ cwd ++ relComps jid))
        → find_files cwd fs jid = []) := by
  refine ⟨by simp [find_files, List.append_assoc], ?_, ?_⟩
  · intro x
    simp only [find_files, List.mem_append, globStar_mem]
    constructor
    · rintro ((⟨n, hx, hmem, hm⟩ | ⟨n, hx, hmem, hm⟩) | ⟨n, hx, hmem, hm⟩)
      · exact Or.inl ⟨n, hx, hmem, Or.inl hm⟩
      · exact Or.inl ⟨n, hx, hmem, Or.inr hm⟩
      · exact Or.inr ⟨n, hx, hmem, hm⟩
    · rintro (⟨n, hx, hmem, hm | hm⟩ | ⟨n, hx, hmem, hm⟩)
      · exact Or.inl (Or.inl ⟨n, hx, hmem, hm⟩)
      · exact Or.inl (Or.inr ⟨n, hx, hmem, hm⟩)
      · exact Or.inr ⟨n, hx, hmem, hm⟩
  · intro hno
    have hg : ∀ retPre sufx,
        globStar cwd fs (relComps jid) retPre sufx = [] := by
      intro retPre sufx
      rw [List.eq_nil_iff_forall_not_mem]
      intro x hx
      rw [globStar_mem] at hx
      obtain ⟨n, hx1, hmem, hm⟩ := hx
      refine hno _ hmem ⟨⟨[n], rfl⟩, ?_⟩
      intro heq
      have := congrArg List.length heq
      simp at this
    have hg3 : globStar cwd fs (relComps jid ++ ["previews"]) (jid ++ "/previews/") ""
        = [] := by
      rw [List.eq_nil_iff_forall_not_mem]
      intro x hx
      rw [globStar_mem] at hx
      obtain ⟨n, hx1, hmem, hm⟩ := hx
      refine hno _ hmem ⟨⟨["previews", n], by simp⟩, ?_⟩
      intro heq
      have := congrArg List.length heq
      simp at this
    simp [find_files, hg, hg3]

theorem find_files_spec_w :
    find_files ["home"] gsSys.fs "J1" = [] :=
  (find_files_spec ["home"] gsSys.fs "J1").2.2 (by decide)

/-! ## C9 — progress accumulation -/

theorem runProg_foldl (l : List Nat) : ∀ sz s0 : Nat,
    l.foldl progCall ⟨sz, s0⟩ = ⟨sz, s0 + l.sum⟩ := by
  induction l with
  | nil => intro sz s0; simp [progCall]
  | cons b rest ih =>
    intro sz s0
    simp only [List.foldl_cons, progCall, ih, List.sum_cons]
    rw [Nat.add_assoc]

/-- C9: under the mutual-exclusion lock every callback body is atomic, so
a concurrent execution of a batch of incremental callbacks is a run of
some permutation of the increment list; every such run accumulates
exactly the sum of all increments (no increment is lost), and when the
increments sum to the archive size the reported percentage is exactly
100 (printed as `100.00%`) — in particular for increments [10,10,5]
against a 25-byte archive. -/
theorem progress_accumulates (size : Nat) (l l' : List Nat) (hp : l.Perm l') :
    (runProg size l').seen = l.sum
    ∧ (runProg size l').size = size
    ∧ (l.sum = size → size ≠ 0 → progPct (runProg size l') = 100) := by
  have hr : runProg size l' = ⟨size, l'.sum⟩ := by
    unfold runProg
    rw [runProg_foldl]
    simp
  have hs : l'.sum = l.sum := hp.sum_eq.symm
  refine ⟨by rw [hr, hs], by rw [hr], ?_⟩
  intro hsum hnz
  rw [hr]
  unfold progPct
  simp only [hs, hsum]
  rw [div_self (by exact_mod_cast hnz)]
  norm_num

theorem progress_accumulates_w :
    (runProg 25 [5, 10, 10]).seen = [10, 10, 5].sum
    ∧ progPct (runProg 25 [5, 10, 10]) = 100 := by
  have h := progress_accumulates 25 [10, 10, 5] [5, 10, 10] (by decide)
  exact ⟨h.1, h.2.2 (by decide) (by decide)⟩

end Caldp
